import Mathlib

/-!
Verification of the Quizify MCQ application (`src/main.py`) against its
natural-language specification.

The development shallowly embeds the program: Python values decoded from the
model's JSON response are modelled by the inductive type `Json`; the pandas
DataFrame holding the question bank is modelled as a `List Question` (the
DataFrame of a list of dicts has a RangeIndex `0..n-1`, so positional lists
are faithful); the Streamlit session state is the structure `SessionState`;
Python dicts are insertion-ordered association lists without duplicate keys
(`dinsert` / `dlookup` / `derase`); code that can raise an uncaught Python
exception returns `Except`.
-/

/-- A JSON value as decoded by Python's `json.loads`: `None`, booleans,
numbers, strings, lists and dicts.  Numbers are modelled as integers
(fractional and exponent numerals are outside the model). -/
inductive Json where
  | null : Json
  | bool (b : Bool) : Json
  | num (n : Int) : Json
  | str (s : String) : Json
  | arr (elems : List Json) : Json
  | obj (fields : List (String × Json)) : Json

mutual

def jsonDecEq : (a b : Json) → Decidable (a = b)
  | .null, .null => isTrue rfl
  | .bool a, .bool b =>
      match decEq a b with
      | isTrue h => isTrue (by rw [h])
      | isFalse h => isFalse (fun he => h (Json.bool.inj he))
  | .num a, .num b =>
      match decEq a b with
      | isTrue h => isTrue (by rw [h])
      | isFalse h => isFalse (fun he => h (Json.num.inj he))
  | .str a, .str b =>
      match decEq a b with
      | isTrue h => isTrue (by rw [h])
      | isFalse h => isFalse (fun he => h (Json.str.inj he))
  | .arr xs, .arr ys =>
      match jsonListDecEq xs ys with
      | isTrue h => isTrue (by rw [h])
      | isFalse h => isFalse (fun he => h (Json.arr.inj he))
  | .obj xs, .obj ys =>
      match jsonFieldsDecEq xs ys with
      | isTrue h => isTrue (by rw [h])
      | isFalse h => isFalse (fun he => h (Json.obj.inj he))
  | .null, .bool _ => isFalse (fun h => Json.noConfusion h)
  | .null, .num _ => isFalse (fun h => Json.noConfusion h)
  | .null, .str _ => isFalse (fun h => Json.noConfusion h)
  | .null, .arr _ => isFalse (fun h => Json.noConfusion h)
  | .null, .obj _ => isFalse (fun h => Json.noConfusion h)
  | .bool _, .null => isFalse (fun h => Json.noConfusion h)
  | .bool _, .num _ => isFalse (fun h => Json.noConfusion h)
  | .bool _, .str _ => isFalse (fun h => Json.noConfusion h)
  | .bool _, .arr _ => isFalse (fun h => Json.noConfusion h)
  | .bool _, .obj _ => isFalse (fun h => Json.noConfusion h)
  | .num _, .null => isFalse (fun h => Json.noConfusion h)
  | .num _, .bool _ => isFalse (fun h => Json.noConfusion h)
  | .num _, .str _ => isFalse (fun h => Json.noConfusion h)
  | .num _, .arr _ => isFalse (fun h => Json.noConfusion h)
  | .num _, .obj _ => isFalse (fun h => Json.noConfusion h)
  | .str _, .null => isFalse (fun h => Json.noConfusion h)
  | .str _, .bool _ => isFalse (fun h => Json.noConfusion h)
  | .str _, .num _ => isFalse (fun h => Json.noConfusion h)
  | .str _, .arr _ => isFalse (fun h => Json.noConfusion h)
  | .str _, .obj _ => isFalse (fun h => Json.noConfusion h)
  | .arr _, .null => isFalse (fun h => Json.noConfusion h)
  | .arr _, .bool _ => isFalse (fun h => Json.noConfusion h)
  | .arr _, .num _ => isFalse (fun h => Json.noConfusion h)
  | .arr _, .str _ => isFalse (fun h => Json.noConfusion h)
  | .arr _, .obj _ => isFalse (fun h => Json.noConfusion h)
  | .obj _, .null => isFalse (fun h => Json.noConfusion h)
  | .obj _, .bool _ => isFalse (fun h => Json.noConfusion h)
  | .obj _, .num _ => isFalse (fun h => Json.noConfusion h)
  | .obj _, .str _ => isFalse (fun h => Json.noConfusion h)
  | .obj _, .arr _ => isFalse (fun h => Json.noConfusion h)

def jsonListDecEq : (xs ys : List Json) → Decidable (xs = ys)
  | [], [] => isTrue rfl
  | [], _ :: _ => isFalse (fun h => List.noConfusion h)
  | _ :: _, [] => isFalse (fun h => List.noConfusion h)
  | x :: xs, y :: ys =>
      match jsonDecEq x y with
      | isFalse h1 => isFalse (fun he => h1 (List.cons.inj he).1)
      | isTrue h1 =>
          match jsonListDecEq xs ys with
          | isTrue h2 => isTrue (by rw [h1, h2])
          | isFalse h2 => isFalse (fun he => h2 (List.cons.inj he).2)

def jsonFieldsDecEq : (xs ys : List (String × Json)) → Decidable (xs = ys)
  | [], [] => isTrue rfl
  | [], _ :: _ => isFalse (fun h => List.noConfusion h)
  | _ :: _, [] => isFalse (fun h => List.noConfusion h)
  | (k, v) :: xs, (l, w) :: ys =>
      match decEq k l with
      | isFalse h1 =>
          isFalse (fun he => h1 (congrArg Prod.fst (List.cons.inj he).1))
      | isTrue h1 =>
          match jsonDecEq v w with
          | isFalse h2 =>
              isFalse (fun he => h2 (congrArg Prod.snd (List.cons.inj he).1))
          | isTrue h2 =>
              match jsonFieldsDecEq xs ys with
              | isTrue h3 => isTrue (by rw [h1, h2, h3])
              | isFalse h3 => isFalse (fun he => h3 (List.cons.inj he).2)

end

instance : DecidableEq Json := jsonDecEq

/-- The characters Python's argument-free `str.strip()` removes
(ASCII whitespace). -/
def pyIsSpace (c : Char) : Bool :=
  c = ' ' || c = '\t' || c = '\n' || c = '\r' || c = '\x0b' || c = '\x0c'

/-- Removes the characters satisfying `p` from both ends of a string. -/
def stripEnds (p : Char → Bool) (s : String) : String :=
  String.mk (((s.toList.dropWhile p).reverse.dropWhile p).reverse)

/-- Python `s.strip()`: whitespace removed from both ends. -/
def pyStrip (s : String) : String := stripEnds pyIsSpace s

/-- Python `s.strip(chars)`: every character belonging to `chars` is removed
from both ends (a character set, not a substring — the naive fence strip the
source performs on line 62 of `src/main.py`). -/
def pyStripChars (chars : List Char) (s : String) : String :=
  stripEnds (fun c => chars.contains c) s

/-- Boolean list-prefix test, used to model Python `str.startswith`. -/
def isStartOf : List Char → List Char → Bool
  | [], _ => true
  | _ :: _, [] => false
  | c :: cs, d :: ds => (c = d : Bool) && isStartOf cs ds

/-- Python `s.startswith(t)`. -/
def pyStartsWith (s t : String) : Bool := isStartOf t.toList s.toList

/-- JSON inter-token whitespace. -/
def jsonWs (c : Char) : Bool := c = ' ' || c = '\t' || c = '\n' || c = '\r'

/-- Skip JSON whitespace. -/
def skipWs (cs : List Char) : List Char := cs.dropWhile jsonWs

/-- Decimal digit test. -/
def isDigitC (c : Char) : Bool := '0' ≤ c && c ≤ '9'

/-- Consume a run of decimal digits, accumulating their value. -/
def digitsToNat : Nat → List Char → Nat × List Char
  | acc, [] => (acc, [])
  | acc, c :: rest =>
      if isDigitC c then digitsToNat (acc * 10 + (c.toNat - 48)) rest
      else (acc, c :: rest)

/-- Decode a JSON string escape character (`\uXXXX` escapes are outside the
model). -/
def escapeChar (e : Char) : Option Char :=
  if e = '"' then some '"'
  else if e = '\\' then some '\\'
  else if e = '/' then some '/'
  else if e = 'n' then some '\n'
  else if e = 't' then some '\t'
  else if e = 'r' then some '\r'
  else if e = 'b' then some '\x08'
  else if e = 'f' then some '\x0c'
  else none

/-- Parse the body of a JSON string after the opening quote; returns the
decoded characters and the input remaining after the closing quote. -/
def parseStrChars : List Char → Option (List Char × List Char)
  | [] => none
  | c :: rest =>
      if c = '"' then some ([], rest)
      else if c = '\\' then
        match rest with
        | [] => none
        | e :: rest2 =>
            match escapeChar e with
            | none => none
            | some ch =>
                match parseStrChars rest2 with
                | none => none
                | some (s, r) => some (ch :: s, r)
      else
        match parseStrChars rest with
        | none => none
        | some (s, r) => some (c :: s, r)

mutual

/-- Fuel-indexed recursive-descent parser for a JSON value, modelling
Python's `json.loads` grammar (on integer numerals and `\uXXXX`-free
strings). -/
def parseVal : Nat → List Char → Option (Json × List Char)
  | 0, _ => none
  | Nat.succ fuel, cs =>
      match skipWs cs with
      | [] => none
      | c :: rest =>
          if c = 'n' then
            match rest with
            | 'u' :: 'l' :: 'l' :: r => some (Json.null, r)
            | _ => none
          else if c = 't' then
            match rest with
            | 'r' :: 'u' :: 'e' :: r => some (Json.bool true, r)
            | _ => none
          else if c = 'f' then
            match rest with
            | 'a' :: 'l' :: 's' :: 'e' :: r => some (Json.bool false, r)
            | _ => none
          else if c = '"' then
            match parseStrChars rest with
            | some (s, r) => some (Json.str (String.mk s), r)
            | none => none
          else if c = '[' then
            match skipWs rest with
            | ']' :: r => some (Json.arr [], r)
            | _ =>
                match parseItems fuel rest with
                | some (xs, r) => some (Json.arr xs, r)
                | none => none
          else if c = '\x7b' then
            match skipWs rest with
            | '\x7d' :: r => some (Json.obj [], r)
            | _ =>
                match parseMembers fuel rest with
                | some (fs, r) => some (Json.obj fs, r)
                | none => none
          else if c = '-' then
            match rest with
            | d :: _ =>
                if isDigitC d then
                  match digitsToNat 0 rest with
                  | (n, r) => some (Json.num (-(Int.ofNat n)), r)
                else none
            | [] => none
          else if isDigitC c then
            match digitsToNat 0 (c :: rest) with
            | (n, r) => some (Json.num (Int.ofNat n), r)
          else none

/-- Parse the comma-separated items of a non-empty JSON array, including the
closing bracket. -/
def parseItems : Nat → List Char → Option (List Json × List Char)
  | 0, _ => none
  | Nat.succ fuel, cs =>
      match parseVal fuel cs with
      | none => none
      | some (v, r) =>
          match skipWs r with
          | ',' :: r2 =>
              match parseItems fuel r2 with
              | some (xs, r3) => some (v :: xs, r3)
              | none => none
          | ']' :: r2 => some ([v], r2)
          | _ => none

/-- Parse the members of a non-empty JSON object, including the closing
brace. -/
def parseMembers : Nat → List Char → Option (List (String × Json) × List Char)
  | 0, _ => none
  | Nat.succ fuel, cs =>
      match skipWs cs with
      | '"' :: rest =>
          match parseStrChars rest with
          | none => none
          | some (k, r) =>
              match skipWs r with
              | ':' :: r2 =>
                  match parseVal fuel r2 with
                  | none => none
                  | some (v, r3) =>
                      match skipWs r3 with
                      | ',' :: r4 =>
                          match parseMembers fuel r4 with
                          | some (fs, r5) => some ((String.mk k, v) :: fs, r5)
                          | none => none
                      | '\x7d' :: r4 => some ([(String.mk k, v)], r4)
                      | _ => none
              | _ => none
      | _ => none

end

/-- Python `json.loads` (line 65 of `src/main.py`): parses the whole input as
one JSON value, failing with `json.JSONDecodeError` (modelled as
`Except.error ()`) on malformed or trailing input. -/
def json_loads (s : String) : Except Unit Json :=
  match parseVal (2 * s.length + 2) s.toList with
  | some (v, r) => if skipWs r = [] then Except.ok v else Except.error ()
  | none => Except.error ()

/-- One row of the question-bank DataFrame.  `pd.DataFrame(mcq_list)` keeps
each dict's values unvalidated, so every field is an arbitrary `Json` value;
a key a record does not carry is modelled as `Json.null` (pandas `NaN`). -/
structure Question where
  question : Json
  options : Json
  answer : Json
  language : Json
deriving DecidableEq

/-- Look a key up in a decoded JSON object; as in Python dicts built by
`json.loads`, the last occurrence of a duplicated key wins, and a missing
key yields the `NaN`-placeholder `Json.null`. -/
def obj_get (fields : List (String × Json)) (k : String) : Json :=
  match fields.reverse.find? (fun p => p.1 = k) with
  | some p => p.2
  | none => Json.null

/-- Turn one element of the decoded list into a DataFrame row.  The model
covers the shape the prompt requests (a list of JSON objects); a non-object
element is modelled as a constructor failure. -/
def question_of_item : Json → Except Unit Question
  | .obj fields =>
      .ok { question := obj_get fields "question", options := obj_get fields "options",
            answer := obj_get fields "answer", language := obj_get fields "language" }
  | _ => .error ()

/-- Convert every decoded record, left to right, failing on the first bad
one. -/
def questions_of_items : List Json → Except Unit (List Question)
  | [] => .ok []
  | x :: rest =>
      match question_of_item x with
      | .error e => .error e
      | .ok q =>
          match questions_of_items rest with
          | .error e => .error e
          | .ok qs => .ok (q :: qs)

/-- `pd.DataFrame(mcq_list)` (line 66 of `src/main.py`): a decoded list
becomes the bank's rows, `None` becomes an empty frame, and a scalar raises
an uncaught `ValueError`. -/
def df_of_json : Json → Except Unit (List Question)
  | .arr items => questions_of_items items
  | .null => .ok []
  | _ => .error ()

/-- Lines 59–62 of `src/main.py`: `response.text.strip()`, then the naive
code-fence strip `strip("```json").strip("```").strip()` applied when the
text starts with a fence. -/
def preprocess (text : String) : String :=
  let t := pyStrip text
  if pyStartsWith t "```json" || pyStartsWith t "```" then
    pyStrip (pyStripChars "```".toList (pyStripChars "```json".toList t))
  else t

/-- An uncaught Python exception escaping the generator. -/
inductive PyError where
  | networkError : PyError
  | valueError : PyError
deriving DecidableEq

/-- `generate_question_bank` (lines 25–70 of `src/main.py`).  Its outbound
call `model.generate_content(prompt)` is modelled by the `resp` argument:
`Except.error ()` when the network call raises, `Except.ok text` when it
returns `text`.  Only `json.JSONDecodeError` is caught (returning `None`,
modelled `Except.ok none`); a raising network call or a non-list decoded
value propagates as `Except.error`. -/
def generate_question_bank (resp : Except Unit String) :
    Except PyError (Option (List Question)) :=
  match resp with
  | .error _ => .error .networkError
  | .ok text =>
      match json_loads (preprocess text) with
      | .error _ => .ok none
      | .ok v =>
          match df_of_json v with
          | .error _ => .error .valueError
          | .ok rows => .ok (some rows)

/-- The mutable Streamlit session state the claims range over:
`st.session_state.mcq_df`, `st.session_state.current_index`,
`st.session_state.saved_answers` (lines 14–20 of `src/main.py`). -/
structure SessionState where
  mcq_df : Option (List Question)
  current_index : Nat
  saved_answers : List (Nat × String)
deriving DecidableEq

/-- What the Generate-MCQs button handler shows the user. -/
inductive GenMessage where
  | warnMissingInput : GenMessage
  | errorGenerating : GenMessage
  | genSuccess : GenMessage
deriving DecidableEq

/-- The Generate-MCQs button handler (lines 184–196 of `src/main.py`):
requires a non-empty topic and a selected difficulty, calls
`generate_question_bank`, and installs the returned frame only when it is
neither `None` nor empty; an uncaught exception from the generator
propagates. -/
def generate_handler (topic : String) (selected_level : Option String)
    (resp : Except Unit String) (s : SessionState) :
    Except PyError (GenMessage × SessionState) :=
  if topic ≠ "" ∧ selected_level.isSome then
    match generate_question_bank resp with
    | .error e => .error e
    | .ok none => .ok (.errorGenerating, s)
    | .ok (some rows) =>
        if rows.isEmpty then .ok (.errorGenerating, s)
        else .ok (.genSuccess,
          { mcq_df := some rows, current_index := 0, saved_answers := [] })
  else .ok (.warnMissingInput, s)

/-- Python dict update `d[k] = v` on an insertion-ordered association list:
an existing binding is overwritten in place, a new key is appended. -/
def dinsert (k : Nat) (v : String) : List (Nat × String) → List (Nat × String)
  | [] => [(k, v)]
  | (l, w) :: rest => if l = k then (k, v) :: rest else (l, w) :: dinsert k v rest

/-- Python dict lookup `d[k]` / `k in d`. -/
def dlookup (k : Nat) : List (Nat × String) → Option String
  | [] => none
  | (l, w) :: rest => if l = k then some w else dlookup k rest

/-- Python `del d[k]`: removes the binding of `k`. -/
def derase (k : Nat) : List (Nat × String) → List (Nat × String)
  | [] => []
  | (l, w) :: rest => if l = k then rest else (l, w) :: derase k rest

/-- Is this decoded value a Python `str`? -/
def isStr : Json → Bool
  | .str _ => true
  | _ => false

/-- One option's display text (line 101 of `src/main.py`):
`opt if opt.strip() else "Option not available"`.  `opt.strip()` raises
`AttributeError` on a non-string, modelled as `Except.error ()`; a
whitespace-only string is replaced by the placeholder, any other string is
shown unchanged. -/
def strip_display : Json → Except Unit String
  | .str s => .ok (if pyStrip s = "" then "Option not available" else s)
  | _ => .error ()

/-- The list comprehension of line 101, evaluated left to right with the
first exception propagating. -/
def display_all : List Json → Except Unit (List String)
  | [] => .ok []
  | o :: rest =>
      match strip_display o with
      | .error e => .error e
      | .ok s =>
          match display_all rest with
          | .error e => .error e
          | .ok ss => .ok (s :: ss)

/-- Python iteration over the `options` cell: a list yields its elements, a
string yields its characters, and any other value (including the `NaN` of a
missing field) raises `TypeError`. -/
def py_iter : Json → Except Unit (List Json)
  | .arr xs => .ok xs
  | .str s => .ok (s.toList.map (fun c => Json.str (String.mk [c])))
  | _ => .error ()

/-- The option labels `display_mcq` renders for the current question
(lines 72–106 of `src/main.py`): nothing when no bank is loaded (early
return with a warning), otherwise the placeholder-substituted texts of
`mcq_df.iloc[index]["options"]`.  `Except.error ()` marks the renders that
raise: an out-of-range `iloc`, a non-string question text reaching
`re.search`, a non-iterable options cell, or a non-string option reaching
`.strip()`. -/
def display_mcq_options (s : SessionState) : Except Unit (List String) :=
  match s.mcq_df with
  | none => .ok []
  | some bank =>
      if bank.isEmpty then .ok []
      else
        match bank[s.current_index]? with
        | none => .error ()
        | some row =>
            match row.question with
            | .str _ =>
                match py_iter row.options with
                | .error e => .error e
                | .ok xs => display_all xs
            | _ => .error ()

/-- Clicking the `i`-th rendered option button (lines 104–106 of
`src/main.py`): stores that button's label under the current index.  When
the button does not exist (no bank, fewer options, or a render that raised)
nothing happens. -/
def click_option (s : SessionState) (i : Nat) : SessionState :=
  match display_mcq_options s with
  | .error _ => s
  | .ok opts =>
      match opts[i]? with
      | some option => { s with saved_answers := dinsert s.current_index option s.saved_answers }
      | none => s

/-- The Reset-Answer button (lines 111–113 of `src/main.py`): rendered only
while a non-empty bank is displayed; deletes the saved answer of the current
index if one exists. -/
def reset_answer (s : SessionState) : SessionState :=
  match s.mcq_df with
  | none => s
  | some bank =>
      if bank.isEmpty then s
      else if (dlookup s.current_index s.saved_answers).isSome then
        { s with saved_answers := derase s.current_index s.saved_answers }
      else s

/-- The Previous button (lines 119–124 of `src/main.py`): rendered only
while a non-empty bank is displayed and `current_index > 0`; decrements the
index. -/
def nav_previous (s : SessionState) : SessionState :=
  match s.mcq_df with
  | none => s
  | some bank =>
      if bank.isEmpty then s
      else if 0 < s.current_index then { s with current_index := s.current_index - 1 }
      else s

/-- The Next button (lines 125–129 of `src/main.py`): rendered only while a
non-empty bank is displayed and `current_index < len(mcq_df) - 1`;
increments the index. -/
def nav_next (s : SessionState) : SessionState :=
  match s.mcq_df with
  | none => s
  | some bank =>
      if bank.isEmpty then s
      else if s.current_index < bank.length - 1 then
        { s with current_index := s.current_index + 1 }
      else s

/-- Python `saved_answers[i] == row["answer"]`: the saved answer is always a
`str`, so the comparison is string equality when the stored answer cell is a
string and `False` otherwise (Python `==` across types). -/
def py_eq_str_json (a : String) : Json → Bool
  | .str s => a = s
  | _ => false

/-- Does row `i` count as correct: `i in saved_answers and
saved_answers[i] == row["answer"]` (line 144 of `src/main.py`). -/
def answer_matches (ans : List (Nat × String)) (i : Nat) (q : Question) : Bool :=
  match dlookup i ans with
  | some a => py_eq_str_json a q.answer
  | none => false

/-- The score sum of lines 143–145, iterating `mcq_df.iterrows()` whose
labels are the positional indices `k, k+1, …`. -/
def correct_count_from (ans : List (Nat × String)) : Nat → List Question → Nat
  | _, [] => 0
  | k, q :: rest =>
      (if answer_matches ans k q then 1 else 0) + correct_count_from ans (k + 1) rest

/-- `correct_count` of `submit_test` (lines 143–145 of `src/main.py`). -/
def correct_count (bank : List Question) (ans : List (Nat × String)) : Nat :=
  correct_count_from ans 0 bank

/-- One line of the incorrect-answer review (lines 156–161 of
`src/main.py`). -/
structure IncorrectEntry where
  index : Nat
  question : Json
  given : String
  correct : Json
deriving DecidableEq

/-- The incorrect-answer review loop of lines 156–161, iterating
`mcq_df.iterrows()` from label `k`: rows with a saved answer differing from
the answer cell. -/
def incorrect_from (ans : List (Nat × String)) : Nat → List Question → List IncorrectEntry
  | _, [] => []
  | k, q :: rest =>
      match dlookup k ans with
      | some a =>
          if py_eq_str_json a q.answer then incorrect_from ans (k + 1) rest
          else ⟨k, q.question, a, q.answer⟩ :: incorrect_from ans (k + 1) rest
      | none => incorrect_from ans (k + 1) rest

/-- The full incorrect-answer review of `submit_test`. -/
def incorrect_list (bank : List Question) (ans : List (Nat × String)) :
    List IncorrectEntry :=
  incorrect_from ans 0 bank

/-- What `submit_test` shows: the no-bank warning of line 140, or the score
banner plus review. -/
inductive SubmitResult where
  | noBank : SubmitResult
  | report (score : Nat) (total : Nat) (incorrect : List IncorrectEntry) : SubmitResult
deriving DecidableEq

/-- `submit_test` (lines 135–161 of `src/main.py`) as a transition returning
the rendered result and the session state it leaves behind.  With no bank
(or an empty one) it warns and touches nothing; otherwise it computes the
score from the local `mcq_df` / `saved_answers` captured before lines
148–150 clear the session state, so the report reads the pre-clear data. -/
def submit_test (s : SessionState) : SubmitResult × SessionState :=
  match s.mcq_df with
  | none => (.noBank, s)
  | some bank =>
      if bank.isEmpty then (.noBank, s)
      else
        (.report (correct_count bank s.saved_answers) bank.length
           (incorrect_list bank s.saved_answers),
         { mcq_df := none, current_index := 0, saved_answers := [] })

/-- Follows the spec's words (§4.3): index `i` is counted correct iff
`savedAnswers[i]` exists and equals `bank[i].correctAnswer` exactly. -/
def specCorrectAt (bank : List Question) (ans : List (Nat × String)) (i : Nat) : Bool :=
  match bank[i]?, dlookup i ans with
  | some q, some a => decide (q.answer = Json.str a)
  | _, _ => false

/-- Follows the spec's words (§4.3): the incorrect list holds, in index
order, every index where an answer was saved but did not match, with the
question, the given answer and the correct answer. -/
def specIncorrect (bank : List Question) (ans : List (Nat × String)) :
    List IncorrectEntry :=
  (List.range bank.length).filterMap (fun i =>
    match bank[i]?, dlookup i ans with
    | some q, some a =>
        if q.answer = Json.str a then none
        else some ⟨i, q.question, a, q.answer⟩
    | _, _ => none)

def wq1 : Question :=
  ⟨Json.str "q1", Json.arr [Json.str "x", Json.str "y"], Json.str "x", Json.bool false⟩

def wq2 : Question :=
  ⟨Json.str "q2", Json.arr [Json.str "u", Json.str "v"], Json.str "u", Json.bool false⟩

def wqInt : Question :=
  ⟨Json.str "q", Json.arr [Json.str "a", Json.num 3], Json.str "a", Json.bool false⟩

def blank_option_question : Question :=
  ⟨Json.str "Pick one", Json.arr [Json.str " ", Json.str "A", Json.str "B", Json.str "C"],
   Json.str "A", Json.bool false⟩

def sample_response : String :=
  "[\x7b\"question\": \"q\", \"options\": [\"a\", \"b\", \"c\", \"d\"], \"answer\": \"e\", \"language\": false\x7d]"

def sample_question : Question :=
  ⟨Json.str "q", Json.arr [Json.str "a", Json.str "b", Json.str "c", Json.str "d"],
   Json.str "e", Json.bool false⟩

theorem dlookup_dinsert_self (k : Nat) (v : String) :
    ∀ (m : List (Nat × String)), dlookup k (dinsert k v m) = some v
  | [] => by simp [dinsert, dlookup]
  | (l, w) :: rest => by
      by_cases h : l = k
      · simp [dinsert, dlookup, h]
      · simp [dinsert, dlookup, h, dlookup_dinsert_self k v rest]

theorem dinsert_dinsert_same (k : Nat) (v v' : String) :
    ∀ (m : List (Nat × String)), dinsert k v' (dinsert k v m) = dinsert k v' m
  | [] => by simp [dinsert]
  | (l, w) :: rest => by
      by_cases h : l = k
      · simp [dinsert, h]
      · simp [dinsert, h, dinsert_dinsert_same k v v' rest]

theorem dlookup_none_of_not_mem (k : Nat) :
    ∀ (m : List (Nat × String)), k ∉ m.map Prod.fst → dlookup k m = none
  | [] => by simp [dlookup]
  | (l, w) :: rest => by
      intro h
      simp only [List.map_cons, List.mem_cons] at h
      push_neg at h
      have hl : l ≠ k := fun he => h.1 he.symm
      simp [dlookup, hl, dlookup_none_of_not_mem k rest h.2]

theorem dlookup_derase_self (k : Nat) :
    ∀ (m : List (Nat × String)), (m.map Prod.fst).Nodup →
      dlookup k (derase k m) = none
  | [] => by simp [derase, dlookup]
  | (l, w) :: rest => by
      intro hnd
      simp only [List.map_cons, List.nodup_cons] at hnd
      by_cases h : l = k
      · subst h
        simp [derase, dlookup_none_of_not_mem l rest hnd.1]
      · simp [derase, dlookup, h, dlookup_derase_self k rest hnd.2]

theorem dlookup_derase_ne (k j : Nat) (hjk : j ≠ k) :
    ∀ (m : List (Nat × String)), dlookup j (derase k m) = dlookup j m
  | [] => by simp [derase, dlookup]
  | (l, w) :: rest => by
      by_cases h : l = k
      · subst h
        have : l ≠ j := fun he => hjk (he.symm)
        simp [derase, dlookup, this]
      · simp [derase, dlookup, h, dlookup_derase_ne k j hjk rest]

theorem derase_of_lookup_none (k : Nat) :
    ∀ (m : List (Nat × String)), dlookup k m = none → derase k m = m
  | [] => by simp [derase]
  | (l, w) :: rest => by
      intro h
      by_cases hl : l = k
      · simp [dlookup, hl] at h
      · simp [dlookup, hl] at h
        simp [derase, hl, derase_of_lookup_none k rest h]

theorem display_all_error_of_nonstr :
    ∀ (os : List Json), (∃ o ∈ os, isStr o = false) → display_all os = .error ()
  | [], h => by simp at h
  | x :: rest, h => by
      rcases h with ⟨o, ho, hns⟩
      rcases List.mem_cons.mp ho with rfl | hm
      · cases o <;> simp [isStr] at hns <;> simp [display_all, strip_display]
      · have hrest := display_all_error_of_nonstr rest ⟨o, hm, hns⟩
        cases hx : strip_display x with
        | error e => simp [display_all, hx]
        | ok s => simp [display_all, hx, hrest]

theorem display_all_all_str :
    ∀ (os : List Json), (∀ o ∈ os, isStr o = true) →
      ∃ L, display_all os = .ok L ∧ L.length = os.length ∧
        ∀ (i : Nat) (b : String), os[i]? = some (Json.str b) →
          L[i]? = some (if pyStrip b = "" then "Option not available" else b)
  | [], _ => ⟨[], by simp [display_all]⟩
  | x :: rest, h => by
      have hx : isStr x = true := h x (List.mem_cons_self x rest)
      cases x with
      | str sx =>
          obtain ⟨L, hL, hlen, hidx⟩ :=
            display_all_all_str rest (fun o ho => h o (List.mem_cons_of_mem _ ho))
          refine ⟨(if pyStrip sx = "" then "Option not available" else sx) :: L,
            by simp [display_all, strip_display, hL], by simp [hlen], ?_⟩
          intro i b hib
          cases i with
          | zero =>
              simp only [List.getElem?_cons_zero, Option.some.injEq] at hib ⊢
              cases hib
              rfl
          | succ j =>
              simp only [List.getElem?_cons_succ] at hib ⊢
              exact hidx j b hib
      | null => simp [isStr] at hx
      | bool b => simp [isStr] at hx
      | num n => simp [isStr] at hx
      | arr xs => simp [isStr] at hx
      | obj fs => simp [isStr] at hx

theorem py_eq_str_json_eq_decide (a : String) (j : Json) :
    py_eq_str_json a j = decide (j = Json.str a) := by
  cases j with
  | str s =>
      by_cases h : a = s
      · subst h; simp [py_eq_str_json]
      · have h' : Json.str s ≠ Json.str a := by
          intro he; exact h (by injection he with h2; exact h2.symm)
        simp [py_eq_str_json, h, h']
  | null => simp [py_eq_str_json]
  | bool b => simp [py_eq_str_json]
  | num n => simp [py_eq_str_json]
  | arr xs => simp [py_eq_str_json]
  | obj fs => simp [py_eq_str_json]

theorem correct_count_from_eq (ans : List (Nat × String)) :
    ∀ (bank : List Question) (k : Nat),
      correct_count_from ans k bank =
        (List.range bank.length).countP (fun j =>
          match bank[j]?, dlookup (k + j) ans with
          | some q, some a => decide (q.answer = Json.str a)
          | _, _ => false)
  | [], k => by simp [correct_count_from]
  | q :: rest, k => by
      rw [correct_count_from, correct_count_from_eq ans rest (k + 1)]
      simp only [List.length_cons, List.range_succ_eq_map, List.countP_cons,
        List.countP_map]
      have h0 : (match (q :: rest)[0]?, dlookup (k + 0) ans with
          | some q, some a => decide (q.answer = Json.str a)
          | _, _ => false) = answer_matches ans k q := by
        simp only [List.getElem?_cons_zero, Nat.add_zero]
        cases h : dlookup k ans with
        | none => simp [answer_matches, h]
        | some a => simp [answer_matches, h, py_eq_str_json_eq_decide]
      have hsucc : ((fun j =>
          match (q :: rest)[j]?, dlookup (k + j) ans with
          | some q, some a => decide (q.answer = Json.str a)
          | _, _ => false) ∘ Nat.succ) = (fun j =>
          match rest[j]?, dlookup (k + 1 + j) ans with
          | some q, some a => decide (q.answer = Json.str a)
          | _, _ => false) := by
        funext j
        simp only [Function.comp_apply, List.getElem?_cons_succ]
        rw [show k + Nat.succ j = k + 1 + j by omega]
      rw [hsucc, h0]
      omega

theorem incorrect_from_eq (ans : List (Nat × String)) :
    ∀ (bank : List Question) (k : Nat),
      incorrect_from ans k bank =
        (List.range bank.length).filterMap (fun j =>
          match bank[j]?, dlookup (k + j) ans with
          | some q, some a =>
              if q.answer = Json.str a then none
              else some ⟨k + j, q.question, a, q.answer⟩
          | _, _ => none)
  | [], k => by simp [incorrect_from]
  | q :: rest, k => by
      rw [incorrect_from, incorrect_from_eq ans rest (k + 1)]
      simp only [List.length_cons, List.range_succ_eq_map, List.filterMap_cons,
        List.filterMap_map]
      have hsucc : ((fun j =>
          match (q :: rest)[j]?, dlookup (k + j) ans with
          | some q, some a =>
              if q.answer = Json.str a then none
              else some (⟨k + j, q.question, a, q.answer⟩ : IncorrectEntry)
          | _, _ => none) ∘ Nat.succ) = (fun j =>
          match rest[j]?, dlookup (k + 1 + j) ans with
          | some q, some a =>
              if q.answer = Json.str a then none
              else some (⟨k + 1 + j, q.question, a, q.answer⟩ : IncorrectEntry)
          | _, _ => none) := by
        funext j
        simp only [Function.comp_apply, List.getElem?_cons_succ]
        rw [show k + Nat.succ j = k + 1 + j by omega]
      rw [hsucc]
      cases h : dlookup k ans with
      | none =>
          simp only [List.getElem?_cons_zero, Nat.add_zero, h]
      | some a =>
          simp only [List.getElem?_cons_zero, Nat.add_zero, h,
            py_eq_str_json_eq_decide]
          by_cases hq : q.answer = Json.str a
          · simp [hq]
          · simp [hq]

theorem submit_correct_spec (bank : List Question) (ans : List (Nat × String)) :
    correct_count bank ans = (List.range bank.length).countP (specCorrectAt bank ans) := by
  rw [correct_count, correct_count_from_eq]
  congr 1
  funext j
  simp only [Nat.zero_add]
  rfl

theorem submit_incorrect_spec (bank : List Question) (ans : List (Nat × String)) :
    incorrect_list bank ans = specIncorrect bank ans := by
  rw [incorrect_list, incorrect_from_eq, specIncorrect]
  congr 1
  funext j
  simp only [Nat.zero_add]

theorem display_ignores_saved (s : SessionState) (a : List (Nat × String)) :
    display_mcq_options ⟨s.mcq_df, s.current_index, a⟩ = display_mcq_options s :=
  rfl

theorem c1_counterexample :
    dlookup 0 (click_option ⟨some [blank_option_question], 0, []⟩ 0).saved_answers =
      some "Option not available" ∧
    dlookup 0 (click_option ⟨some [blank_option_question], 0, []⟩ 0).saved_answers ≠
      some " " := by
  constructor
  · rfl
  · decide

/-- C1 (amended): the placeholder substitution never mutates the bank, but
it is not display-only for answer capture — clicking a blank
(whitespace-only) option stores the placeholder label "Option not
available", not the original blank string, in `savedAnswers[currentIndex]`,
and that stored value is what scoring later compares. -/
theorem c1_amended_placeholder_stored (bank : List Question) (idx : Nat)
    (ans : List (Nat × String)) (i : Nat) (q : Question) (os : List Json) (b : String)
    (hq : bank[idx]? = some q) (hqs : isStr q.question = true)
    (hopt : q.options = Json.arr os) (hall : ∀ o ∈ os, isStr o = true)
    (hi : os[i]? = some (Json.str b)) (hb : pyStrip b = "") :
    (click_option ⟨some bank, idx, ans⟩ i).mcq_df = some bank ∧
    (click_option ⟨some bank, idx, ans⟩ i).current_index = idx ∧
    dlookup idx (click_option ⟨some bank, idx, ans⟩ i).saved_answers =
      some "Option not available" := by
  have hne : bank ≠ [] := by
    intro h
    subst h
    simp at hq
  have hie : bank.isEmpty = false := List.isEmpty_eq_false.mpr hne
  obtain ⟨L, hL, hlen, hidx⟩ := display_all_all_str os hall
  have hLi : L[i]? = some "Option not available" := by
    simpa [hb] using hidx i b hi
  have hdisp : display_mcq_options ⟨some bank, idx, ans⟩ = .ok L := by
    simp only [display_mcq_options, hie, Bool.false_eq_true, if_false, hq, hopt]
    cases hqq : q.question with
    | str sq => simp [py_iter, hL]
    | null => rw [hqq] at hqs; simp [isStr] at hqs
    | bool v => rw [hqq] at hqs; simp [isStr] at hqs
    | num n => rw [hqq] at hqs; simp [isStr] at hqs
    | arr xs => rw [hqq] at hqs; simp [isStr] at hqs
    | obj fs => rw [hqq] at hqs; simp [isStr] at hqs
  simp [click_option, hdisp, hLi, dlookup_dinsert_self]

theorem c1_amended_placeholder_stored_witness :
    (([blank_option_question] : List Question)[0]? = some blank_option_question ∧
     isStr blank_option_question.question = true ∧
     blank_option_question.options =
       Json.arr [Json.str " ", Json.str "A", Json.str "B", Json.str "C"] ∧
     (∀ o ∈ [Json.str " ", Json.str "A", Json.str "B", Json.str "C"], isStr o = true) ∧
     ([Json.str " ", Json.str "A", Json.str "B", Json.str "C"] : List Json)[0]? =
       some (Json.str " ") ∧
     pyStrip " " = "") ∧
    ((click_option ⟨some [blank_option_question], 0, []⟩ 0).mcq_df =
       some [blank_option_question] ∧
     (click_option ⟨some [blank_option_question], 0, []⟩ 0).current_index = 0 ∧
     dlookup 0 (click_option ⟨some [blank_option_question], 0, []⟩ 0).saved_answers =
       some "Option not available") :=
  ⟨⟨rfl, rfl, rfl, by decide, rfl, rfl⟩,
   c1_amended_placeholder_stored [blank_option_question] 0 [] 0 blank_option_question
     [Json.str " ", Json.str "A", Json.str "B", Json.str "C"] " "
     rfl rfl rfl (by decide) rfl rfl⟩

theorem c2_counterexample :
    generate_handler "math" (some "Beginner") (.ok sample_response) ⟨none, 0, []⟩ =
      .ok (.genSuccess, ⟨some [sample_question], 0, []⟩) ∧
    ([sample_question] : List Question).length ≠ 10 ∧
    sample_question.answer = Json.str "e" ∧
    sample_question.options =
      Json.arr [Json.str "a", Json.str "b", Json.str "c", Json.str "d"] ∧
    Json.str "e" ∉ [Json.str "a", Json.str "b", Json.str "c", Json.str "d"] :=
  ⟨rfl, by decide, rfl, rfl, by decide⟩

/-- C2 (amended): a successful generation call installs, as the bank,
exactly the full list of records parsed from the model's response —
all-or-nothing and non-empty, with the index reset and answers cleared —
but nothing validates that the bank has 10 questions or that an answer is a
member of its options. -/
theorem c2_amended_no_validation (topic : String) (lvl : Option String)
    (t : String) (s s' : SessionState) (b : List Question)
    (hgen : generate_handler topic lvl (.ok t) s = .ok (.genSuccess, s'))
    (hb : s'.mcq_df = some b) :
    b ≠ [] ∧ s'.current_index = 0 ∧ s'.saved_answers = [] ∧
    ∃ v, json_loads (preprocess t) = .ok v ∧ df_of_json v = .ok b := by
  rw [generate_handler] at hgen
  split at hgen
  · rw [generate_question_bank] at hgen
    cases hjl : json_loads (preprocess t) with
    | error e =>
        rw [hjl] at hgen
        simp at hgen
    | ok v =>
        rw [hjl] at hgen
        simp only at hgen
        cases hdf : df_of_json v with
        | error e =>
            rw [hdf] at hgen
            simp at hgen
        | ok rows =>
            rw [hdf] at hgen
            by_cases hre : rows.isEmpty
            · simp [hre] at hgen
            · simp only [hre, Bool.false_eq_true, if_false, Except.ok.injEq,
                Prod.mk.injEq, true_and] at hgen
              subst hgen
              simp only at hb
              cases hb
              exact ⟨List.isEmpty_eq_false.mp (by simpa using hre), rfl, rfl,
                v, rfl, hdf⟩
  · simp at hgen

theorem c2_amended_no_validation_witness :
    (generate_handler "math" (some "Beginner") (.ok sample_response) ⟨none, 0, []⟩ =
       .ok (.genSuccess, ⟨some [sample_question], 0, []⟩) ∧
     (⟨some [sample_question], 0, []⟩ : SessionState).mcq_df = some [sample_question]) ∧
    ([sample_question] ≠ ([] : List Question) ∧
     (⟨some [sample_question], 0, []⟩ : SessionState).current_index = 0 ∧
     (⟨some [sample_question], 0, []⟩ : SessionState).saved_answers = [] ∧
     ∃ v, json_loads (preprocess sample_response) = .ok v ∧
       df_of_json v = .ok [sample_question]) :=
  ⟨⟨rfl, rfl⟩,
   c2_amended_no_validation "math" (some "Beginner") sample_response
     ⟨none, 0, []⟩ ⟨some [sample_question], 0, []⟩ [sample_question] rfl rfl⟩

theorem c3_counterexample :
    generate_handler "math" (some "Beginner") (.error ()) ⟨some [wq1], 1, [(0, "x")]⟩ =
      .error .networkError ∧
    ∀ (r : GenMessage × SessionState),
      generate_handler "math" (some "Beginner") (.error ()) ⟨some [wq1], 1, [(0, "x")]⟩ ≠
        .ok r := by
  refine ⟨rfl, ?_⟩
  intro r h
  rw [show generate_handler "math" (some "Beginner") (.error ())
      ⟨some [wq1], 1, [(0, "x")]⟩ = .error .networkError from rfl] at h
  exact Except.noConfusion h

/-- C3 (amended): only JSON-decoding failures are caught at the generator
boundary — for them the handler shows the generation-error message and
leaves the session state exactly unchanged — while a raising network call is
not caught anywhere and propagates out of the generator and its button
handler. -/
theorem c3_amended_only_parse_caught (topic : String) (lvl : Option String)
    (t : String) (s : SessionState)
    (htopic : topic ≠ "") (hlvl : lvl.isSome = true)
    (hparse : json_loads (preprocess t) = .error ()) :
    generate_handler topic lvl (.ok t) s = .ok (.errorGenerating, s) ∧
    generate_handler topic lvl (.error ()) s = .error .networkError := by
  constructor
  · rw [generate_handler, if_pos ⟨htopic, hlvl⟩, generate_question_bank, hparse]
  · rw [generate_handler, if_pos ⟨htopic, hlvl⟩]
    rfl

theorem c3_amended_only_parse_caught_witness :
    (("math" : String) ≠ "" ∧ (some "Beginner" : Option String).isSome = true ∧
     json_loads (preprocess "oops") = .error ()) ∧
    (generate_handler "math" (some "Beginner") (.ok "oops") ⟨some [wq1], 1, [(0, "x")]⟩ =
       .ok (.errorGenerating, ⟨some [wq1], 1, [(0, "x")]⟩) ∧
     generate_handler "math" (some "Beginner") (.error ()) ⟨some [wq1], 1, [(0, "x")]⟩ =
       .error .networkError) :=
  ⟨⟨by decide, rfl, rfl⟩,
   c3_amended_only_parse_caught "math" (some "Beginner") "oops"
     ⟨some [wq1], 1, [(0, "x")]⟩ (by decide) rfl rfl⟩

/-- C4: with a loaded non-empty bank, submit reports exactly the
spec-prescribed result: the score counts precisely the indices whose saved
answer exists and equals the row's correct answer under exact string
equality, the total is the bank length, and the incorrect list holds exactly
the indices with a saved but mismatched answer (unanswered rows excluded),
each with its question, given and correct answer. -/
theorem c4_scorer_exact (bank : List Question) (ans : List (Nat × String))
    (idx : Nat) (hne : bank ≠ []) :
    submit_test ⟨some bank, idx, ans⟩ =
      (.report ((List.range bank.length).countP (specCorrectAt bank ans))
        bank.length (specIncorrect bank ans),
       ⟨none, 0, []⟩) := by
  have hie : bank.isEmpty = false := List.isEmpty_eq_false.mpr hne
  simp [submit_test, hie, submit_correct_spec, submit_incorrect_spec]

theorem c4_scorer_exact_witness :
    ([wq1, wq2] ≠ ([] : List Question)) ∧
    submit_test ⟨some [wq1, wq2], 0, [(0, "x"), (1, "wrong")]⟩ =
      (.report ((List.range ([wq1, wq2] : List Question).length).countP
          (specCorrectAt [wq1, wq2] [(0, "x"), (1, "wrong")]))
        ([wq1, wq2] : List Question).length
        (specIncorrect [wq1, wq2] [(0, "x"), (1, "wrong")]),
       ⟨none, 0, []⟩) :=
  ⟨by decide, c4_scorer_exact [wq1, wq2] [(0, "x"), (1, "wrong")] 0 (by decide)⟩

/-- C5: submitting with a loaded bank clears the session state (bank absent,
index 0, answers empty) while the report is computed from the pre-clear bank
and answers, and a second submit on the resulting state reports the no-MCQs
warning. -/
theorem c5_submit_clears (bank : List Question) (idx : Nat)
    (ans : List (Nat × String)) (hne : bank ≠ []) :
    submit_test ⟨some bank, idx, ans⟩ =
      (.report (correct_count bank ans) bank.length (incorrect_list bank ans),
       ⟨none, 0, []⟩) ∧
    submit_test (submit_test ⟨some bank, idx, ans⟩).2 = (.noBank, ⟨none, 0, []⟩) := by
  have hie : bank.isEmpty = false := List.isEmpty_eq_false.mpr hne
  simp [submit_test, hie]

theorem c5_submit_clears_witness :
    ([wq1] ≠ ([] : List Question)) ∧
    (submit_test ⟨some [wq1], 0, [(0, "y")]⟩ =
      (.report (correct_count [wq1] [(0, "y")]) ([wq1] : List Question).length
        (incorrect_list [wq1] [(0, "y")]), ⟨none, 0, []⟩) ∧
     submit_test (submit_test ⟨some [wq1], 0, [(0, "y")]⟩).2 =
       (.noBank, ⟨none, 0, []⟩)) :=
  ⟨by decide, c5_submit_clears [wq1] 0 [(0, "y")] (by decide)⟩

/-- C6: submitting with no bank loaded (absent or empty) reports the warning
result, performs no scoring, and leaves the session state exactly as it
was. -/
theorem c6_submit_no_bank (s : SessionState)
    (h : s.mcq_df = none ∨ s.mcq_df = some []) :
    submit_test s = (.noBank, s) := by
  obtain ⟨df, idx, ans⟩ := s
  rcases h with h | h <;> simp_all [submit_test]

theorem c6_submit_no_bank_witness :
    ((⟨none, 3, [(0, "x")]⟩ : SessionState).mcq_df = none ∨
     (⟨none, 3, [(0, "x")]⟩ : SessionState).mcq_df = some []) ∧
    submit_test ⟨none, 3, [(0, "x")]⟩ = (.noBank, ⟨none, 3, [(0, "x")]⟩) :=
  ⟨Or.inl rfl, c6_submit_no_bank ⟨none, 3, [(0, "x")]⟩ (Or.inl rfl)⟩

/-- C7: with a loaded bank and an in-range index, Previous and Next keep
`current_index` inside `[0, len(bank) - 1]` (indices are naturals, so the
lower bound is inherent): Previous is a strict no-op at index 0 and
decrements by one otherwise, Next is a strict no-op at the last index and
increments by one otherwise, and neither touches the bank. -/
theorem c7_navigation_bounds (bank : List Question) (idx : Nat)
    (ans : List (Nat × String)) (hidx : idx < bank.length) :
    (nav_previous ⟨some bank, idx, ans⟩).current_index < bank.length ∧
    (nav_next ⟨some bank, idx, ans⟩).current_index < bank.length ∧
    (idx = 0 → nav_previous ⟨some bank, idx, ans⟩ = ⟨some bank, idx, ans⟩) ∧
    (0 < idx → (nav_previous ⟨some bank, idx, ans⟩).current_index = idx - 1) ∧
    (idx = bank.length - 1 → nav_next ⟨some bank, idx, ans⟩ = ⟨some bank, idx, ans⟩) ∧
    (idx < bank.length - 1 → (nav_next ⟨some bank, idx, ans⟩).current_index = idx + 1) ∧
    (nav_previous ⟨some bank, idx, ans⟩).mcq_df = some bank ∧
    (nav_next ⟨some bank, idx, ans⟩).mcq_df = some bank := by
  have hne : bank ≠ [] := by
    intro h
    subst h
    simp at hidx
  have hie : bank.isEmpty = false := List.isEmpty_eq_false.mpr hne
  simp only [nav_previous, nav_next, hie, Bool.false_eq_true, if_false]
  refine ⟨?_, ?_, ?_, ?_, ?_, ?_, ?_, ?_⟩ <;> split <;> simp_all <;> omega

theorem c7_navigation_bounds_witness :
    (1 < ([wq1, wq2] : List Question).length) ∧
    ((nav_previous ⟨some [wq1, wq2], 1, []⟩).current_index <
       ([wq1, wq2] : List Question).length ∧
     (nav_next ⟨some [wq1, wq2], 1, []⟩).current_index <
       ([wq1, wq2] : List Question).length ∧
     ((1 : Nat) = 0 → nav_previous ⟨some [wq1, wq2], 1, []⟩ = ⟨some [wq1, wq2], 1, []⟩) ∧
     ((0 : Nat) < 1 → (nav_previous ⟨some [wq1, wq2], 1, []⟩).current_index = 1 - 1) ∧
     ((1 : Nat) = ([wq1, wq2] : List Question).length - 1 →
        nav_next ⟨some [wq1, wq2], 1, []⟩ = ⟨some [wq1, wq2], 1, []⟩) ∧
     ((1 : Nat) < ([wq1, wq2] : List Question).length - 1 →
        (nav_next ⟨some [wq1, wq2], 1, []⟩).current_index = 1 + 1) ∧
     (nav_previous ⟨some [wq1, wq2], 1, []⟩).mcq_df = some [wq1, wq2] ∧
     (nav_next ⟨some [wq1, wq2], 1, []⟩).mcq_df = some [wq1, wq2]) :=
  ⟨by decide, c7_navigation_bounds [wq1, wq2] 1 [] (by decide)⟩

/-- C8: clicking the same option button twice leaves the whole state — in
particular `savedAnswers[currentIndex]` — exactly as after the first click,
and clicking a different (existing) option button afterwards overwrites the
saved answer with that option. -/
theorem c8_select_idempotent_overwrite (s : SessionState) (i j : Nat)
    (opts : List String) (o : String) :
    click_option (click_option s i) i = click_option s i ∧
    (display_mcq_options s = .ok opts → opts[j]? = some o →
      dlookup s.current_index (click_option (click_option s i) j).saved_answers = some o) := by
  constructor
  · cases hd : display_mcq_options s with
    | error e => simp [click_option, hd]
    | ok opts' =>
        cases hg : opts'[i]? with
        | none => simp [click_option, hd, hg]
        | some oi =>
            have hs1 : click_option s i =
                { s with saved_answers := dinsert s.current_index oi s.saved_answers } := by
              simp [click_option, hd, hg]
            have hd1 : display_mcq_options
                { s with saved_answers := dinsert s.current_index oi s.saved_answers } =
                .ok opts' := by
              rw [show display_mcq_options
                  { s with saved_answers := dinsert s.current_index oi s.saved_answers } =
                  display_mcq_options s from rfl, hd]
            rw [hs1]
            simp [click_option, hd1, hg, dinsert_dinsert_same]
  · intro hd hg
    cases hgi : (match display_mcq_options s with
        | .error _ => none
        | .ok opts' => opts'[i]?) with
    | none =>
        rw [hd] at hgi
        simp only at hgi
        have hs1 : click_option s i = s := by
          simp [click_option, hd, hgi]
        rw [hs1]
        simp [click_option, hd, hg, dlookup_dinsert_self]
    | some oi =>
        rw [hd] at hgi
        simp only at hgi
        have hs1 : click_option s i =
            { s with saved_answers := dinsert s.current_index oi s.saved_answers } := by
          simp [click_option, hd, hgi]
        have hd1 : display_mcq_options
            { s with saved_answers := dinsert s.current_index oi s.saved_answers } =
            .ok opts := by
          rw [show display_mcq_options
              { s with saved_answers := dinsert s.current_index oi s.saved_answers } =
              display_mcq_options s from rfl, hd]
        rw [hs1]
        simp [click_option, hd1, hg, dlookup_dinsert_self]

theorem c8_select_idempotent_overwrite_witness :
    (click_option (click_option ⟨some [wq1], 0, []⟩ 0) 0 =
       click_option ⟨some [wq1], 0, []⟩ 0) ∧
    (display_mcq_options ⟨some [wq1], 0, []⟩ = .ok ["x", "y"] →
      (["x", "y"] : List String)[1]? = some "y" →
      dlookup 0 (click_option (click_option ⟨some [wq1], 0, []⟩ 0) 1).saved_answers =
        some "y") :=
  c8_select_idempotent_overwrite ⟨some [wq1], 0, []⟩ 0 1 ["x", "y"] "y"

/-- C9: with a non-empty bank displayed, Reset deletes the saved answer at
the current index when one exists and is a strict no-op otherwise; in both
cases the bank, the current index and the answers saved at other indices are
untouched. -/
theorem c9_reset_frame (s : SessionState) (bank : List Question)
    (hdf : s.mcq_df = some bank) (hne : bank ≠ [])
    (hnd : (s.saved_answers.map Prod.fst).Nodup) :
    (reset_answer s).mcq_df = s.mcq_df ∧
    (reset_answer s).current_index = s.current_index ∧
    dlookup s.current_index (reset_answer s).saved_answers = none ∧
    (∀ j, j ≠ s.current_index →
      dlookup j (reset_answer s).saved_answers = dlookup j s.saved_answers) ∧
    (dlookup s.current_index s.saved_answers = none → reset_answer s = s) := by
  have hie : bank.isEmpty = false := List.isEmpty_eq_false.mpr hne
  obtain ⟨df, idx, ans⟩ := s
  simp only at hdf
  subst hdf
  cases hl : dlookup idx ans with
  | none =>
      simp [reset_answer, hie, hl]
  | some a =>
      refine ⟨?_, ?_, ?_, ?_, ?_⟩
      · simp [reset_answer, hie, hl]
      · simp [reset_answer, hie, hl]
      · simp only [reset_answer, hie, Bool.false_eq_true, if_false, hl,
          Option.isSome_some, if_true]
        exact dlookup_derase_self idx ans hnd
      · intro j hj
        simp only [reset_answer, hie, Bool.false_eq_true, if_false, hl,
          Option.isSome_some, if_true]
        exact dlookup_derase_ne idx j hj ans
      · intro h
        exact Option.noConfusion h

theorem c9_reset_frame_witness :
    ((⟨some [wq1, wq2], 0, [(0, "x"), (1, "v")]⟩ : SessionState).mcq_df = some [wq1, wq2] ∧
     [wq1, wq2] ≠ ([] : List Question) ∧
     (([(0, "x"), (1, "v")] : List (Nat × String)).map Prod.fst).Nodup) ∧
    ((reset_answer ⟨some [wq1, wq2], 0, [(0, "x"), (1, "v")]⟩).mcq_df =
       (⟨some [wq1, wq2], 0, [(0, "x"), (1, "v")]⟩ : SessionState).mcq_df ∧
     (reset_answer ⟨some [wq1, wq2], 0, [(0, "x"), (1, "v")]⟩).current_index =
       (⟨some [wq1, wq2], 0, [(0, "x"), (1, "v")]⟩ : SessionState).current_index ∧
     dlookup 0 (reset_answer ⟨some [wq1, wq2], 0, [(0, "x"), (1, "v")]⟩).saved_answers = none ∧
     (∀ j, j ≠ (⟨some [wq1, wq2], 0, [(0, "x"), (1, "v")]⟩ : SessionState).current_index →
       dlookup j (reset_answer ⟨some [wq1, wq2], 0, [(0, "x"), (1, "v")]⟩).saved_answers =
         dlookup j [(0, "x"), (1, "v")]) ∧
     (dlookup 0 [(0, "x"), (1, "v")] = none →
       reset_answer ⟨some [wq1, wq2], 0, [(0, "x"), (1, "v")]⟩ =
         ⟨some [wq1, wq2], 0, [(0, "x"), (1, "v")]⟩)) :=
  ⟨⟨rfl, by decide, by decide⟩,
   c9_reset_frame ⟨some [wq1, wq2], 0, [(0, "x"), (1, "v")]⟩ [wq1, wq2] rfl
     (by decide) (by decide)⟩

/-- C10: rendering applies `.strip()` to every option entry, so displaying a
question whose options sequence contains a non-string value raises an
exception instead of rendering the options with placeholders. -/
theorem c10_nonstring_option_raises (bank : List Question) (idx : Nat)
    (ans : List (Nat × String)) (q : Question) (os : List Json)
    (hq : bank[idx]? = some q) (hopt : q.options = Json.arr os)
    (hns : ∃ o ∈ os, isStr o = false) :
    display_mcq_options ⟨some bank, idx, ans⟩ = .error () := by
  have hne : bank ≠ [] := by
    intro h
    subst h
    simp at hq
  have hie : bank.isEmpty = false := List.isEmpty_eq_false.mpr hne
  simp only [display_mcq_options, hie, Bool.false_eq_true, if_false, hq, hopt]
  cases hqq : q.question with
  | str sq => simp [py_iter, display_all_error_of_nonstr os hns]
  | null => rfl
  | bool b => rfl
  | num n => rfl
  | arr xs => rfl
  | obj fs => rfl

theorem c10_nonstring_option_raises_witness :
    (([wqInt] : List Question)[0]? = some wqInt ∧
     wqInt.options = Json.arr [Json.str "a", Json.num 3] ∧
     (∃ o ∈ [Json.str "a", Json.num 3], isStr o = false)) ∧
    display_mcq_options ⟨some [wqInt], 0, []⟩ = .error () :=
  ⟨⟨rfl, rfl, ⟨Json.num 3, by simp, rfl⟩⟩,
   c10_nonstring_option_raises [wqInt] 0 [] wqInt [Json.str "a", Json.num 3]
     rfl rfl ⟨Json.num 3, by simp, rfl⟩⟩
